import Mathlib

/-!
Shallow embedding of sleves02/Stacked-ML: the code-execution component
(`CodeExecutor` in src/app.py; the second class definition at lines 400-452 is
the one in force, since Python rebinds the name), the caller flow that consumes
plot artifacts (src/app.py lines 526-535), the JSON-backed `UserProgress`
tracker (src/app.py lines 89-126), the SQLite-backed progress store
(src/dataprogress.py), and the login store (src/login.py, with a full
executable SHA-256 standing in for `hashlib.sha256(...).hexdigest()`).

Executed user code is modelled by a small Python fragment (integers, strings,
booleans, variables, `+`, assignment, `print`, `raise`, `while`, `pass`, and a
`plt` plotting call) with a fuel-indexed structural interpreter, so that every
definition evaluates inside the kernel.  The `CodeExecutor` logic itself
(shared dicts, stream capture, the `'plt' in code` substring test, the
`except Exception` handler, the `finally` cleanup) is translated line by line
from the source.
-/

namespace StackedML

/-- One step of Python's substring scan: does `hay` begin with `needle`? -/
def startsWithChars : List Char → List Char → Bool
  | [], _ => true
  | _ :: _, [] => false
  | a :: as, b :: bs => a == b && startsWithChars as bs

/-- `containsChars needle hay`: `needle` occurs contiguously in `hay`
(Python's `needle in hay` on strings). -/
def containsChars (needle : List Char) : List Char → Bool
  | [] => needle.isEmpty
  | b :: bs => startsWithChars needle (b :: bs) || containsChars needle bs

/-- Python's `sub in s` substring test, as used by `if 'plt' in code`
(src/app.py lines 428 and 436). -/
def strContains (s sub : String) : Bool := containsChars sub.toList s.toList

/-- Values of the modelled Python fragment.  `module` stands for the library
modules (`np`, `pd`, `plt`, `sns`) preloaded into `self.globals`. -/
inductive PyVal where
  | int (n : Int)
  | str (s : String)
  | bool (b : Bool)
  | module (name : String)
deriving DecidableEq

/-- A Python dict with string keys, as an association list. -/
abbrev Dict := List (String × PyVal)

/-- Dict lookup (`d[k]` / `k in d`). -/
def dictGet (d : Dict) (k : String) : Option PyVal :=
  match d with
  | [] => none
  | (k', v) :: rest => if k' == k then some v else dictGet rest k

/-- Dict assignment `d[k] = v`.  Python dicts hold one binding per key; the
association list keeps that invariant by dropping any old binding for `k`.
(Python keeps an updated key at its original position; only iteration order
differs, which none of the verified properties depend on.) -/
def dictSet (d : Dict) (k : String) (v : PyVal) : Dict :=
  d.filter (fun p => !(p.1 == k)) ++ [(k, v)]

/-- Number of bindings a dict holds for key `k`. -/
def dictCountKey (d : Dict) (k : String) : Nat :=
  (d.filter (fun p => p.1 == k)).length

/-- Expressions of the modelled Python fragment. -/
inductive PyExpr where
  | intLit (n : Int)
  | strLit (s : String)
  | boolLit (b : Bool)
  | var (x : String)
  | add (a b : PyExpr)
deriving DecidableEq

/-- Statements of the modelled Python fragment.  `pltPlot` stands for a call
such as `plt.plot([1, 2, 3])` that draws axes on the current figure;
`seqS` sequences two statements (a Python suite). -/
inductive PyStmt where
  | assign (x : String) (e : PyExpr)
  | printE (e : PyExpr)
  | raiseE (excName msg : String)
  | whileE (cond : PyExpr) (body : PyStmt)
  | passE
  | pltPlot
  | seqS (a b : PyStmt)
deriving DecidableEq

/-- A source submission: the raw text (what `'plt' in code` scans) together
with its parse into the modelled fragment. -/
structure PyCode where
  text : String
  prog : PyStmt
deriving DecidableEq

/-- A raised Python exception: class name and `str(e)` message. -/
structure PyExc where
  name : String
  msg : String
deriving DecidableEq

/-- The environment `exec(code, self.globals, self.locals)` runs in: the two
dicts, the redirected-stdout buffer, and the matplotlib current-figure state
(whether the current figure has axes). -/
structure Env where
  globals : Dict
  locals : Dict
  out : String
  figAxes : Bool
deriving DecidableEq

/-- Python name lookup inside `exec`: locals first, then globals, else
`NameError` (message mirrors CPython's `name 'x' is not defined`, minus the
quotes). -/
def lookupName (env : Env) (x : String) : Except PyExc PyVal :=
  match dictGet env.locals x with
  | some v => .ok v
  | none =>
    match dictGet env.globals x with
    | some v => .ok v
    | none => .error ⟨"NameError", "name " ++ x ++ " is not defined"⟩

/-- Python `+` on the modelled values. -/
def pyAdd : PyVal → PyVal → Except PyExc PyVal
  | .int a, .int b => .ok (.int (a + b))
  | .str a, .str b => .ok (.str (a ++ b))
  | _, _ => .error ⟨"TypeError", "unsupported operand type(s) for +"⟩

/-- `str(v)` as `print` renders it. -/
def pyStr : PyVal → String
  | .int n => toString n
  | .str s => s
  | .bool b => if b then "True" else "False"
  | .module m => "<module " ++ m ++ ">"

/-- Python truthiness. -/
def truthy : PyVal → Bool
  | .int n => !(n == 0)
  | .str s => !(s == "")
  | .bool b => b
  | .module _ => true

/-- Expression evaluation. -/
def evalExpr (env : Env) : PyExpr → Except PyExc PyVal
  | .intLit n => .ok (.int n)
  | .strLit s => .ok (.str s)
  | .boolLit b => .ok (.bool b)
  | .var x => lookupName env x
  | .add a b =>
    match evalExpr env a with
    | .error e => .error e
    | .ok va =>
      match evalExpr env b with
      | .error e => .error e
      | .ok vb => pyAdd va vb

/-- Outcome of running a statement: normal completion, an uncaught exception
(with the environment at the raise point, since `exec` mutates the dicts in
place), or `more` when the fuel bound was reached before the code finished. -/
inductive ExecOut where
  | ok (env : Env)
  | exc (e : PyExc) (env : Env)
  | more
deriving DecidableEq

/-- Fuel-indexed interpreter for the modelled fragment.  Every step spends one
unit of fuel, so the function is structural in `fuel` and evaluates in the
kernel; a program diverges exactly when it returns `more` at every fuel. -/
def interpStmt : Nat → Env → PyStmt → ExecOut
  | 0, _, _ => .more
  | fuel + 1, env, s =>
    match s with
    | .assign x e =>
      match evalExpr env e with
      | .error ex => .exc ex env
      | .ok v => .ok { env with locals := dictSet env.locals x v }
    | .printE e =>
      match evalExpr env e with
      | .error ex => .exc ex env
      | .ok v => .ok { env with out := env.out ++ pyStr v ++ "\n" }
    | .raiseE name msg => .exc ⟨name, msg⟩ env
    | .passE => .ok env
    | .pltPlot =>
      match lookupName env "plt" with
      | .error ex => .exc ex env
      | .ok _ => .ok { env with figAxes := true }
    | .seqS a b =>
      match interpStmt fuel env a with
      | .ok env' => interpStmt fuel env' b
      | r => r
    | .whileE c body =>
      match evalExpr env c with
      | .error ex => .exc ex env
      | .ok v =>
        if truthy v then
          match interpStmt fuel env body with
          | .ok env' => interpStmt fuel env' (.whileE c body)
          | r => r
        else .ok env

/-- `CodeExecutor.__init__` (src/app.py lines 401-408): the executor keeps one
globals dict (preloaded with the four library modules) and one locals dict,
and both live for the whole lifetime of the executor. -/
structure CodeExecutor where
  globals : Dict
  locals : Dict
deriving DecidableEq

/-- The preloaded globals of a fresh executor. -/
def initGlobals : Dict :=
  [("np", .module "numpy"), ("pd", .module "pandas"),
   ("plt", .module "matplotlib.pyplot"), ("sns", .module "seaborn")]

/-- A fresh `CodeExecutor()`. -/
def CodeExecutor.init : CodeExecutor := ⟨initGlobals, []⟩

/-- State of the host outside the executor: which files exist, and the
matplotlib module-level current-figure state. -/
structure World where
  fs : List String
  figAxes : Bool
deriving DecidableEq

/-- Is path `p` an existing file? -/
def memb (p : String) : List String → Bool
  | [] => false
  | q :: rest => q == p || memb p rest

/-- `plt.savefig(p)`: afterwards the file at `p` exists. -/
def fsAdd (fs : List String) (p : String) : List String :=
  if memb p fs then fs else p :: fs

/-- `os.remove(p)`: afterwards the file at `p` does not exist. -/
def fsRemove (fs : List String) (p : String) : List String :=
  fs.filter (fun q => !(q == p))

/-- The fixed path `plt_path = "temp_plot.png"` of src/app.py line 439. -/
def pltSavePath : String := "temp_plot.png"

/-- The locals key set at src/app.py line 442. -/
def plotPathKey : String := "_plot_path"

/-- The environment `execute` hands to `exec`: the executor's own dicts, a
fresh stdout buffer, and no axes (line 425 runs `plt.close('all')`, and the
`plt.figure()` of line 429 opens an empty figure). -/
def initEnv (self : CodeExecutor) : Env :=
  { globals := self.globals, locals := self.locals, out := "", figAxes := false }

/-- Abstraction of `traceback.format_exc()`: the exact frame text is host
detail; what matters is that it names the exception class and message. -/
def tracebackText (e : PyExc) : String :=
  "Traceback (most recent call last):\n" ++ e.name ++ ": " ++ e.msg ++ "\n"

/-- `CodeExecutor.execute` (src/app.py lines 410-452).  Returns
`(stdout, stderr)` alongside the post-call world and executor; the third
component of the Python return value is `self.locals` itself (not a copy), so
the returned executor's `locals` field is that component.  `none` models the
call not having returned within `fuel` interpreter steps (the method has no
timeout: `exec` runs inline). -/
def CodeExecutor.execute (fuel : Nat) (w : World) (self : CodeExecutor)
    (code : PyCode) : Option (World × CodeExecutor × String × String) :=
  -- stdout = StringIO(); stderr = StringIO()
  -- try: plt.close('all'); if 'plt' in code: plt.figure()
  match interpStmt fuel (initEnv self) code.prog with
  | .more => none
  | .exc e env' =>
    -- except Exception as e: stderr.write(f"Error: {str(e)}\n");
    -- stderr.write(traceback.format_exc()); finally: plt.close('all')
    some ({ fs := w.fs, figAxes := false }, ⟨env'.globals, env'.locals⟩,
          env'.out, "Error: " ++ e.msg ++ "\n" ++ tracebackText e)
  | .ok env' =>
    -- if 'plt' in code: fig = plt.gcf(); if len(fig.axes) > 0:
    --   plt.savefig(plt_path); plt.close(); self.locals['_plot_path'] = plt_path
    -- finally: plt.close('all')
    if strContains code.text "plt" && env'.figAxes then
      some ({ fs := fsAdd w.fs pltSavePath, figAxes := false },
            ⟨env'.globals, dictSet env'.locals plotPathKey (.str pltSavePath)⟩,
            env'.out, "")
    else
      some ({ fs := w.fs, figAxes := false }, ⟨env'.globals, env'.locals⟩,
            env'.out, "")

/-- Stdout component of an `execute` result. -/
def resStdout : Option (World × CodeExecutor × String × String) → String
  | some (_, _, out, _) => out
  | none => ""

/-- Stderr component of an `execute` result. -/
def resStderr : Option (World × CodeExecutor × String × String) → String
  | some (_, _, _, err) => err
  | none => ""

/-- The locals component of the tuple `execute` returns is `self.locals`
itself — the same mutable dict object, not a snapshot — so reading it at any
later time reads the executor's locals as they stand at that time. -/
def resultLocalsNow (self : CodeExecutor) : Dict := self.locals

/-- The caller side of the plot artifact (src/app.py lines 532-535):
`if '_plot_path' in locals_dict: st.image(locals_dict['_plot_path']);
os.remove(locals_dict['_plot_path'])`.  `st.image` reads the file and
`os.remove` deletes it; both raise (`none`) if the file does not exist. -/
def consumePlotArtifact (w : World) (localsDict : Dict) : Option World :=
  match dictGet localsDict plotPathKey with
  | some (.str p) => if memb p w.fs then some { w with fs := fsRemove w.fs p } else none
  | some _ => none
  | none => some w

/-- `print(2+2)` — spec scenario 1. -/
def codePrint22 : PyCode :=
  { text := "print(2+2)", prog := .printE (.add (.intLit 2) (.intLit 2)) }

/-- `x = 1`. -/
def codeAssignX1 : PyCode := { text := "x = 1", prog := .assign "x" (.intLit 1) }

/-- `x = 2`. -/
def codeAssignX2 : PyCode := { text := "x = 2", prog := .assign "x" (.intLit 2) }

/-- `print(x)`. -/
def codePrintX : PyCode := { text := "print(x)", prog := .printE (.var "x") }

/-- `raise ValueError("bad")` — spec scenario 3. -/
def codeRaiseBad : PyCode :=
  { text := "raise ValueError(\"bad\")", prog := .raiseE "ValueError" "bad" }

/-- `while True: pass` — spec scenario 2. -/
def codeWhileTrue : PyCode :=
  { text := "while True: pass", prog := .whileE (.boolLit true) .passE }

/-- `plt.plot([1, 2, 3])` — code that renders a plot (spec scenario 4). -/
def codePlot : PyCode := { text := "plt.plot([1, 2, 3])", prog := .pltPlot }

/-- A host world with no files and no open figure. -/
def w0 : World := ⟨[], false⟩

/-- Run `c1`, then run `c2` on the executor and world `c1` left behind. -/
def runAfter (fuel : Nat) (w : World) (self : CodeExecutor) (c1 c2 : PyCode) :
    Option (World × CodeExecutor × String × String) :=
  match CodeExecutor.execute fuel w self c1 with
  | some (w', self', _, _) => CodeExecutor.execute fuel w' self' c2
  | none => none

/-!
src/login.py: `hash_password` (lines 11-12) is
`hashlib.sha256(password.encode()).hexdigest()`.  The library call is embedded
as a full executable SHA-256 over the UTF-8 bytes of the password.
-/

/-- UTF-8 encoding of one code point (Python's `str.encode()` default). -/
def utf8Bytes (c : Nat) : List Nat :=
  if c < 0x80 then [c]
  else if c < 0x800 then [0xC0 + c / 0x40, 0x80 + c % 0x40]
  else if c < 0x10000 then
    [0xE0 + c / 0x1000, 0x80 + c / 0x40 % 0x40, 0x80 + c % 0x40]
  else
    [0xF0 + c / 0x40000, 0x80 + c / 0x1000 % 0x40, 0x80 + c / 0x40 % 0x40,
     0x80 + c % 0x40]

/-- `password.encode()`: the UTF-8 bytes of a string. -/
def strUtf8 (s : String) : List Nat :=
  (s.toList.map (fun c => utf8Bytes c.toNat)).flatten

/-- 32-bit addition. -/
def add32 (a b : Nat) : Nat := (a + b) % 2 ^ 32

/-- Rotate a 32-bit word right by `n`. -/
def rotr (n x : Nat) : Nat := x / 2 ^ n + x % 2 ^ n * 2 ^ (32 - n)

/-- Logical shift right. -/
def shr (n x : Nat) : Nat := x / 2 ^ n

/-- Bitwise complement of a 32-bit word. -/
def not32 (x : Nat) : Nat := 2 ^ 32 - 1 - x % 2 ^ 32

/-- SHA-256 `Ch`. -/
def shaCh (x y z : Nat) : Nat := (x &&& y) ^^^ (not32 x &&& z)

/-- SHA-256 `Maj`. -/
def shaMaj (x y z : Nat) : Nat := (x &&& y) ^^^ (x &&& z) ^^^ (y &&& z)

/-- SHA-256 `Σ0`. -/
def bigSigma0 (x : Nat) : Nat := rotr 2 x ^^^ rotr 13 x ^^^ rotr 22 x

/-- SHA-256 `Σ1`. -/
def bigSigma1 (x : Nat) : Nat := rotr 6 x ^^^ rotr 11 x ^^^ rotr 25 x

/-- SHA-256 `σ0`. -/
def smallSigma0 (x : Nat) : Nat := rotr 7 x ^^^ rotr 18 x ^^^ shr 3 x

/-- SHA-256 `σ1`. -/
def smallSigma1 (x : Nat) : Nat := rotr 17 x ^^^ rotr 19 x ^^^ shr 10 x

/-- The SHA-256 round constants (in decimal). -/
def shaK : List Nat :=
  [1116352408, 1899447441, 3049323471, 3921009573, 961987163, 1508970993,
   2453635748, 2870763221, 3624381080, 310598401, 607225278, 1426881987,
   1925078388, 2162078206, 2614888103, 3248222580, 3835390401, 4022224774,
   264347078, 604807628, 770255983, 1249150122, 1555081692, 1996064986,
   2554220882, 2821834349, 2952996808, 3210313671, 3336571891, 3584528711,
   113926993, 338241895, 666307205, 773529912, 1294757372, 1396182291,
   1695183700, 1986661051, 2177026350, 2456956037, 2730485921, 2820302411,
   3259730800, 3345764771, 3516065817, 3600352804, 4094571909, 275423344,
   430227734, 506948616, 659060556, 883997877, 958139571, 1322822218,
   1537002063, 1747873779, 1955562222, 2024104815, 2227730452, 2361852424,
   2428436474, 2756734187, 3204031479, 3329325298]

/-- Working state of the compression function. -/
structure Hash8 where
  a : Nat
  b : Nat
  c : Nat
  d : Nat
  e : Nat
  f : Nat
  g : Nat
  h : Nat
deriving DecidableEq

/-- The SHA-256 initial hash value (in decimal). -/
def shaH0 : Hash8 :=
  ⟨1779033703, 3144134277, 1013904242, 2773480762,
   1359893119, 2600822924, 528734635, 1541459225⟩

/-- Append the SHA-256 padding and the 64-bit big-endian bit length. -/
def shaPad (msg : List Nat) : List Nat :=
  let len := msg.length
  let zs := (64 + 55 - len % 64) % 64
  let bits := 8 * len
  msg ++ [0x80] ++ List.replicate zs 0 ++
    (List.range 8).map (fun i => bits / 2 ^ (8 * (7 - i)) % 256)

/-- Group bytes into big-endian 32-bit words. -/
def bytesToWords : List Nat → List Nat
  | b0 :: b1 :: b2 :: b3 :: rest =>
    (b0 * 2 ^ 24 + b1 * 2 ^ 16 + b2 * 2 ^ 8 + b3) :: bytesToWords rest
  | _ => []

/-- Group words into 16-word blocks. -/
def wordsToBlocks : List Nat → List (List Nat)
  | w0 :: w1 :: w2 :: w3 :: w4 :: w5 :: w6 :: w7 ::
    w8 :: w9 :: w10 :: w11 :: w12 :: w13 :: w14 :: w15 :: rest =>
    [w0, w1, w2, w3, w4, w5, w6, w7, w8, w9, w10, w11, w12, w13, w14, w15] ::
      wordsToBlocks rest
  | _ => []

/-- Append the next word of the message schedule. -/
def scheduleStep (ws : List Nat) : List Nat :=
  let t := ws.length
  ws ++ [add32 (add32 (smallSigma1 (ws.getD (t - 2) 0)) (ws.getD (t - 7) 0))
              (add32 (smallSigma0 (ws.getD (t - 15) 0)) (ws.getD (t - 16) 0))]

/-- Iterate `scheduleStep`. -/
def buildSchedule : Nat → List Nat → List Nat
  | 0, ws => ws
  | n + 1, ws => buildSchedule n (scheduleStep ws)

/-- The 64-word message schedule of one block. -/
def shaSchedule (block : List Nat) : List Nat := buildSchedule 48 block

/-- One compression round. -/
def compressRound (s : Hash8) (k w : Nat) : Hash8 :=
  let t1 := add32 s.h (add32 (bigSigma1 s.e) (add32 (shaCh s.e s.f s.g) (add32 k w)))
  let t2 := add32 (bigSigma0 s.a) (shaMaj s.a s.b s.c)
  ⟨add32 t1 t2, s.a, s.b, s.c, add32 s.d t1, s.e, s.f, s.g⟩

/-- Run the 64 rounds over the paired constants and schedule. -/
def compressRounds (s : Hash8) : List (Nat × Nat) → Hash8
  | [] => s
  | (k, w) :: rest => compressRounds (compressRound s k w) rest

/-- Process one 16-word block. -/
def processBlock (h : Hash8) (block : List Nat) : Hash8 :=
  let s := compressRounds h (shaK.zip (shaSchedule block))
  ⟨add32 h.a s.a, add32 h.b s.b, add32 h.c s.c, add32 h.d s.d,
   add32 h.e s.e, add32 h.f s.f, add32 h.g s.g, add32 h.h s.h⟩

/-- Fold over all blocks. -/
def processBlocks (h : Hash8) : List (List Nat) → Hash8
  | [] => h
  | b :: rest => processBlocks (processBlock h b) rest

/-- One lowercase hex digit. -/
def hexDigit (n : Nat) : Char :=
  if n < 10 then Char.ofNat (48 + n) else Char.ofNat (87 + n)

/-- Eight hex digits of a 32-bit word, most significant first. -/
def word8Hex (w : Nat) : List Char :=
  (List.range 8).map (fun i => hexDigit (w / 2 ^ (4 * (7 - i)) % 16))

/-- `hexdigest()` of a final hash state. -/
def digestHex (h : Hash8) : String :=
  String.mk (([h.a, h.b, h.c, h.d, h.e, h.f, h.g, h.h].map word8Hex).flatten)

/-- SHA-256 hex digest of a byte string. -/
def sha256Hex (msg : List Nat) : String :=
  digestHex (processBlocks shaH0 (wordsToBlocks (bytesToWords (shaPad msg))))

/-- `hash_password` (src/login.py lines 11-12):
`hashlib.sha256(password.encode()).hexdigest()`. -/
def hash_password (password : String) : String := sha256Hex (strUtf8 password)

/-- The users dict persisted in `users.json`: username to password hash. -/
abbrev Users := List (String × String)

/-- Dict lookup on the users store (`username in users` / `users[username]`). -/
def usersGet (users : Users) (u : String) : Option String :=
  match users with
  | [] => none
  | (k, v) :: rest => if k == u then some v else usersGet rest u

/-- Dict assignment `users[username] = ...` (one binding per key). -/
def usersSet (users : Users) (u h : String) : Users :=
  users.filter (fun p => !(p.1 == u)) ++ [(u, h)]

/-- `authenticate` (src/login.py lines 27-31). -/
def authenticate (users : Users) (username password : String) : Bool :=
  match usersGet users username with
  | some h => h == hash_password password
  | none => false

/-- `register` (src/login.py lines 34-40); the returned `Users` is what
`save_users` writes back (unchanged when the name is taken). -/
def register (users : Users) (username password : String) :
    Users × Bool × String :=
  if (usersGet users username).isSome then
    (users, false, "Username already exists.")
  else
    (usersSet users username (hash_password password), true,
     "Registration successful!")

/-!
src/dataprogress.py: the `user_progress` table (`username TEXT PRIMARY KEY,
completed_problems TEXT, last_activity TEXT`) with `save_progress` (lines
20-31, an upsert) and `get_progress` (lines 34-40).
-/

/-- The `user_progress` table: rows `(username, completed_problems,
last_activity)`, at most one row per username (the primary key). -/
abbrev ProgressDb := List (String × String × String)

/-- `SELECT completed_problems, last_activity FROM user_progress WHERE
username = ?` followed by `fetchone()`. -/
def dbLookup (db : ProgressDb) (u : String) : Option (String × String) :=
  match db with
  | [] => none
  | (k, c, t) :: rest => if k == u then some (c, t) else dbLookup rest u

/-- Python's `",".join(completed_problems)`. -/
def joinComma : List String → String
  | [] => ""
  | [x] => x
  | x :: y :: rest => x ++ "," ++ joinComma (y :: rest)

/-- One pass of Python's `s.split(",")` over the character list:
`"".split(",")` is `[""]`, and every comma opens a new group. -/
def splitCommaChars : List Char → List (List Char)
  | [] => [[]]
  | c :: cs =>
    if c == ',' then [] :: splitCommaChars cs
    else
      match splitCommaChars cs with
      | [] => [[c]]
      | g :: gs => (c :: g) :: gs

/-- Python's `s.split(",")`. -/
def splitComma (s : String) : List String :=
  (splitCommaChars s.toList).map String.mk

/-- `save_progress` (src/dataprogress.py lines 20-31): `INSERT ... ON
CONFLICT(username) DO UPDATE` — replace the row when the username exists,
insert it otherwise.  `now` is the `datetime.now().strftime(...)` text. -/
def save_progress (db : ProgressDb) (username : String)
    (completed_problems : List String) (now : String) : ProgressDb :=
  db.filter (fun r => !(r.1 == username)) ++
    [(username, joinComma completed_problems, now)]

/-- `get_progress` (src/dataprogress.py lines 34-40):
`return row[0].split(",") if row and row[0] else []`. -/
def get_progress (db : ProgressDb) (username : String) : List String :=
  match dbLookup db username with
  | some (completed, _) => if completed == "" then [] else splitComma completed
  | none => []

/-!
src/app.py lines 89-126: the JSON-backed `UserProgress` tracker.  `self.data`
is the JSON value; `save_user_data` rewrites the whole file, so the returned
record is both the in-memory and the persisted state.
-/

/-- The `self.data` JSON blob of `UserProgress`. -/
structure UserData where
  completed_problems : List Int
  daily_progress : List (String × Nat)
  current_streak : Nat
  last_daily_challenge : Option String
deriving DecidableEq

/-- Membership of a key in `daily_progress`. -/
def dailyHas (dp : List (String × Nat)) (k : String) : Bool :=
  match dp with
  | [] => false
  | (k', _) :: rest => k' == k || dailyHas rest k

/-- `daily_progress.get(key, 0)`. -/
def dailyGet (dp : List (String × Nat)) (k : String) : Nat :=
  match dp with
  | [] => 0
  | (k', v) :: rest => if k' == k then v else dailyGet rest k

/-- `daily_progress[key] = v` (one binding per key). -/
def dailySet (dp : List (String × Nat)) (k : String) (v : Nat) :
    List (String × Nat) :=
  dp.filter (fun p => !(p.1 == k)) ++ [(k, v)]

/-- A `datetime.date`. -/
structure PyDate where
  year : Nat
  month : Nat
  day : Nat
deriving DecidableEq

/-- Zero-pad to two digits. -/
def pad2 (n : Nat) : String := if n < 10 then "0" ++ toString n else toString n

/-- Zero-pad to four digits. -/
def pad4 (n : Nat) : String :=
  if n < 10 then "000" ++ toString n
  else if n < 100 then "00" ++ toString n
  else if n < 1000 then "0" ++ toString n
  else toString n

/-- `date.isoformat()`: `YYYY-MM-DD`. -/
def isoformat (d : PyDate) : String :=
  pad4 d.year ++ "-" ++ pad2 d.month ++ "-" ++ pad2 d.day

/-- The `while current_date.isoformat() in self.data["daily_progress"]` walk
of `update_streak` (src/app.py lines 117-126).  Each present day counts one;
`current_date.replace(day=current_date.day - 1)` raises `ValueError` when the
walk reaches day 1 of the month and tries to build day 0 (that is the `error`
outcome: the streak assignment is never reached).  Day 0 itself cannot occur
as a real `date`, so that branch is inert. -/
def streakWalk (dp : List (String × Nat)) (y m : Nat) : Nat → Except Unit Nat
  | 0 => .ok 0
  | 1 => if dailyHas dp (isoformat ⟨y, m, 1⟩) then .error () else .ok 0
  | d + 2 =>
    if dailyHas dp (isoformat ⟨y, m, d + 2⟩) then
      (streakWalk dp y m (d + 1)).map (· + 1)
    else .ok 0

/-- `update_streak` (src/app.py lines 117-126): on success the streak field is
set; the `error` outcome is the `ValueError` escaping, with `current_streak`
untouched. -/
def update_streak (data : UserData) (today : PyDate) : Except Unit UserData :=
  (streakWalk data.daily_progress today.year today.month today.day).map
    (fun s => { data with current_streak := s })

/-- `mark_problem_complete` (src/app.py lines 109-115).  When `problem_id` is
already in `completed_problems` the method does nothing.  Otherwise it appends
the id, bumps today's `daily_progress` count, recomputes the streak and saves.
`error d` is the `update_streak` `ValueError` escaping to the caller with the
in-place mutations `d` already applied (the append and the bump precede the
raise; `save_user_data` is then never reached). -/
def mark_problem_complete (data : UserData) (today : PyDate) (problem_id : Int) :
    Except UserData UserData :=
  if data.completed_problems.contains problem_id then .ok data
  else
    let d1 : UserData :=
      { data with
        completed_problems := data.completed_problems ++ [problem_id],
        daily_progress :=
          dailySet data.daily_progress (isoformat today)
            (dailyGet data.daily_progress (isoformat today) + 1) }
    match update_streak d1 today with
    | .ok d2 => .ok d2
    | .error _ => .error d1

/-- The `UserProgress` state after a `mark_problem_complete` call, whether the
call returned normally or let the `ValueError` escape. -/
def markState : Except UserData UserData → UserData
  | .ok d => d
  | .error d => d

/-! Helper lemmas about the substring test. -/

theorem startsWithChars_self_append (l t : List Char) :
    startsWithChars l (l ++ t) = true := by
  induction l with
  | nil => rfl
  | cons a as ih => simp [startsWithChars, ih]

theorem containsChars_nil_needle (l : List Char) : containsChars [] l = true := by
  cases l <;> simp [containsChars, startsWithChars, List.isEmpty]

theorem containsChars_middle (pre sub post : List Char) :
    containsChars sub (pre ++ (sub ++ post)) = true := by
  induction pre with
  | nil =>
    cases sub with
    | nil => exact containsChars_nil_needle post
    | cons s ss =>
      simp only [containsChars, List.nil_append, Bool.or_eq_true]
      exact Or.inl (startsWithChars_self_append (s :: ss) post)
  | cons p ps ih => simp [containsChars, ih]

theorem strToList_append (a b : String) : (a ++ b).toList = a.toList ++ b.toList := by
  cases a with
  | mk x => cases b with
    | mk y => rfl

theorem strContains_middle (pre sub post : String) :
    strContains (pre ++ (sub ++ post)) sub = true := by
  unfold strContains
  rw [strToList_append, strToList_append]
  exact containsChars_middle pre.toList sub.toList post.toList

theorem strAppend_assoc (a b c : String) : a ++ b ++ c = a ++ (b ++ c) := by
  cases a with
  | mk x => cases b with
    | mk y => cases c with
      | mk z =>
        show String.mk ((x ++ y) ++ z) = String.mk (x ++ (y ++ z))
        rw [List.append_assoc]

/-! Helper lemmas about the interpreter. -/

theorem interp_while_step (fuel : Nat) (env : Env) (c : PyExpr) (body : PyStmt) :
    interpStmt (fuel + 1) env (.whileE c body) =
      (match evalExpr env c with
       | .error ex => .exc ex env
       | .ok v =>
         if truthy v then
           match interpStmt fuel env body with
           | .ok env' => interpStmt fuel env' (.whileE c body)
           | r => r
         else .ok env) := rfl

theorem interp_seq_step (fuel : Nat) (env : Env) (a b : PyStmt) :
    interpStmt (fuel + 1) env (.seqS a b) =
      (match interpStmt fuel env a with
       | .ok env' => interpStmt fuel env' b
       | r => r) := rfl

/-- The loop `while True: pass` is still running at every fuel bound: the
interpreter never reaches a result for it. -/
theorem whileTrue_no_result (fuel : Nat) :
    ∀ env : Env, interpStmt fuel env (.whileE (.boolLit true) .passE) = .more := by
  induction fuel with
  | zero => intro env; rfl
  | succ n ih =>
    intro env
    rw [interp_while_step]
    have hbody : interpStmt n env .passE = .more ∨ interpStmt n env .passE = .ok env := by
      cases n with
      | zero => left; rfl
      | succ m => right; rfl
    show (match interpStmt n env .passE with
          | .ok env' => interpStmt n env' (.whileE (.boolLit true) .passE)
          | r => r) = .more
    rcases hbody with hb | hb <;> rw [hb]
    exact ih env

/-- `execute` never produces a result for this submission, at any fuel bound. -/
def executeNeverReturns (w : World) (ex : CodeExecutor) (code : PyCode) : Prop :=
  ∀ fuel : Nat, CodeExecutor.execute fuel w ex code = none

/-- C1: the claim is false on the code.  `CodeExecutor.execute` runs
`exec(code, self.globals, self.locals)` against the executor's own dicts, so
state from a first call is observable in a second: running `x = 1` and then
`print(x)` prints `1`, while `print(x)` on a fresh executor prints nothing
(it raises `NameError`), so the output of B depends on whether A ran first. -/
theorem C1_no_state_leak_counterexample :
    resStdout (runAfter 10 w0 CodeExecutor.init codeAssignX1 codePrintX) = "1\n" ∧
    resStdout (CodeExecutor.execute 10 w0 CodeExecutor.init codePrintX) = "" ∧
    resStdout (runAfter 10 w0 CodeExecutor.init codeAssignX1 codePrintX) ≠
      resStdout (CodeExecutor.execute 10 w0 CodeExecutor.init codePrintX) := by
  decide

/-- C1 amended: state from one `execute` call IS observable in the next.  The
executor keeps one globals dict and one locals dict for its whole lifetime, so
a variable bound by source A stays in `self.locals` and is visible to source B
run afterwards: after `x = 1` the executor's locals bind `x`, `print(x)` then
prints `1`, whereas on a fresh executor the same `print(x)` raises
`NameError`. -/
theorem C1_state_persists_amended :
    CodeExecutor.execute 10 w0 CodeExecutor.init codeAssignX1 =
      some (w0, ⟨initGlobals, [("x", PyVal.int 1)]⟩, "", "") ∧
    resStdout (runAfter 10 w0 CodeExecutor.init codeAssignX1 codePrintX) = "1\n" ∧
    strContains (resStderr (CodeExecutor.execute 10 w0 CodeExecutor.init codePrintX))
      "is not defined" = true := by
  decide

/-- C2: any exception raised while `exec` runs the submitted code is caught by
the `except Exception` handler of `CodeExecutor.execute`: the call returns
normally, with the partial stdout, and with a stderr of
`"Error: " + str(e) + "\n"` followed by the traceback text — in particular the
stderr contains the exception's message. -/
theorem C2_faults_caught (fuel : Nat) (w : World) (ex : CodeExecutor)
    (code : PyCode) (e : PyExc) (env' : Env)
    (h : interpStmt fuel (initEnv ex) code.prog = .exc e env') :
    CodeExecutor.execute fuel w ex code =
      some ({ fs := w.fs, figAxes := false }, ⟨env'.globals, env'.locals⟩,
            env'.out, "Error: " ++ e.msg ++ "\n" ++ tracebackText e) ∧
    strContains (resStderr (CodeExecutor.execute fuel w ex code)) e.msg = true := by
  have hx : CodeExecutor.execute fuel w ex code =
      some ({ fs := w.fs, figAxes := false }, ⟨env'.globals, env'.locals⟩,
            env'.out, "Error: " ++ e.msg ++ "\n" ++ tracebackText e) := by
    unfold CodeExecutor.execute
    rw [h]
  refine ⟨hx, ?_⟩
  rw [hx]
  show strContains ("Error: " ++ e.msg ++ "\n" ++ tracebackText e) e.msg = true
  rw [strAppend_assoc, strAppend_assoc]
  exact strContains_middle "Error: " e.msg ("\n" ++ tracebackText e)

/-- C2 witness: `raise ValueError("bad")` comes back as a normal return whose
stderr contains `bad`. -/
theorem C2_faults_caught_witness :
    strContains
      (resStderr (CodeExecutor.execute 10 w0 CodeExecutor.init codeRaiseBad))
      "bad" = true :=
  (C2_faults_caught 10 w0 CodeExecutor.init codeRaiseBad
    ⟨"ValueError", "bad"⟩ (initEnv CodeExecutor.init) (by decide)).2

/-- C3: the claim is false on the code.  `CodeExecutor.execute` takes no
timeout parameter and runs `exec` inline; on `while True: pass` the call never
returns — there is no fuel bound at which it yields any result, let alone a
`Timeout` one (the returned tuple has no exit status at all). -/
theorem C3_timeout_counterexample :
    executeNeverReturns w0 CodeExecutor.init codeWhileTrue := by
  intro fuel
  unfold CodeExecutor.execute
  rw [show codeWhileTrue.prog = .whileE (.boolLit true) .passE from rfl,
      whileTrue_no_result fuel (initEnv CodeExecutor.init)]

/-- C3 amended: `CodeExecutor.execute` has no timeout mechanism: for every
fuel bound, every starting world and every executor, executing
`while True: pass` has not terminated (the call returns no result). -/
theorem C3_no_timeout_amended (fuel : Nat) (w : World) (ex : CodeExecutor) :
    CodeExecutor.execute fuel w ex codeWhileTrue = none := by
  unfold CodeExecutor.execute
  rw [show codeWhileTrue.prog = .whileE (.boolLit true) .passE from rfl,
      whileTrue_no_result fuel (initEnv ex)]

/-- C4: the claim is false on the code.  `execute` returns `self.locals`
itself as the third tuple component, not a copy; a later `execute` on the same
executor mutates that dict, so the locals seen through the first call's result
change: after `x = 1` they read `x = 1`, but once `x = 2` has run on the same
executor the first result's dict reads `x = 2`. -/
theorem C4_result_mutation_counterexample :
    CodeExecutor.execute 10 w0 CodeExecutor.init codeAssignX1 =
      some (w0, ⟨initGlobals, [("x", PyVal.int 1)]⟩, "", "") ∧
    CodeExecutor.execute 10 w0 ⟨initGlobals, [("x", PyVal.int 1)]⟩ codeAssignX2 =
      some (w0, ⟨initGlobals, [("x", PyVal.int 2)]⟩, "", "") ∧
    resultLocalsNow ⟨initGlobals, [("x", PyVal.int 2)]⟩ ≠
      resultLocalsNow ⟨initGlobals, [("x", PyVal.int 1)]⟩ := by
  decide

/-- C4 amended: the stdout and stderr components of a result are strings and
stay as returned, but the locals component aliases the executor's own dict:
after running `x = 1` and then `x = 2` on the same executor, the dict visible
through the first call's result binds `x` to `2`. -/
theorem C4_result_aliasing_amended :
    runAfter 10 w0 CodeExecutor.init codeAssignX1 codeAssignX2 =
      some (w0, ⟨initGlobals, [("x", PyVal.int 2)]⟩, "", "") ∧
    dictGet (resultLocalsNow ⟨initGlobals, [("x", PyVal.int 2)]⟩) "x" =
      some (PyVal.int 2) := by
  decide

/-- C5: executing `print(2+2)` yields stdout exactly `"4\n"`, empty stderr,
leaves the fresh executor and world unchanged, and the run completed without
any exception (the `Ok` outcome of the interpreter). -/
theorem C5_print_two_plus_two :
    CodeExecutor.execute 10 w0 CodeExecutor.init codePrint22 =
      some (w0, CodeExecutor.init, "4\n", "") ∧
    interpStmt 10 (initEnv CodeExecutor.init) codePrint22.prog =
      .ok { initEnv CodeExecutor.init with out := "4\n" } := by
  decide

/-! Helper lemmas about dicts and the file system. -/

theorem dictGet_dictSet_self (d : Dict) (k : String) (v : PyVal) :
    dictGet (dictSet d k v) k = some v := by
  unfold dictSet
  induction d with
  | nil => simp [dictGet]
  | cons p rest ih =>
    by_cases h : p.1 == k
    · simpa [List.filter, h] using ih
    · simp only [List.filter, h, Bool.not_false, List.cons_append]
      rw [show dictGet ((p.1, p.2) :: (List.filter (fun p => !(p.1 == k)) rest ++ [(k, v)])) k
            = dictGet (List.filter (fun p => !(p.1 == k)) rest ++ [(k, v)]) k from by
        simp [dictGet, h]]
      exact ih

theorem dictCountKey_dictSet_self (d : Dict) (k : String) (v : PyVal) :
    dictCountKey (dictSet d k v) k = 1 := by
  unfold dictSet dictCountKey
  induction d with
  | nil => simp [List.filter]
  | cons p rest ih =>
    by_cases h : p.1 == k
    · simp only [List.filter, h, Bool.not_true]
      exact ih
    · simp only [List.filter, h, Bool.not_false, List.cons_append, List.filter_cons,
        Bool.false_eq_true, if_false]
      exact ih

theorem memb_fsAdd_self (fs : List String) (p : String) :
    memb p (fsAdd fs p) = true := by
  unfold fsAdd
  by_cases h : memb p fs
  · rw [if_pos h]
    exact h
  · simp [h, memb]

theorem memb_fsRemove_self (fs : List String) (p : String) :
    memb p (fsRemove fs p) = false := by
  unfold fsRemove
  induction fs with
  | nil => rfl
  | cons q rest ih =>
    by_cases h : q == p
    · simpa [List.filter, h] using ih
    · simpa [List.filter, h, memb] using ih

/-- C6: for every submission whose text mentions `plt` and whose execution
completes leaving axes on the current figure (it renders a plot), `execute`
saves the figure to `temp_plot.png`, binds exactly one `_plot_path` artifact
reference in the returned locals, and the referenced file exists; the caller
flow of `render_problem_solver` then displays it and deletes it, after which
the file is gone. -/
theorem C6_plot_single_artifact (fuel : Nat) (w : World) (ex : CodeExecutor)
    (code : PyCode) (env' : Env)
    (hplt : strContains code.text "plt" = true)
    (hok : interpStmt fuel (initEnv ex) code.prog = .ok env')
    (haxes : env'.figAxes = true) :
    ∃ (w' : World) (ex' : CodeExecutor) (out : String),
      CodeExecutor.execute fuel w ex code = some (w', ex', out, "") ∧
      dictCountKey ex'.locals plotPathKey = 1 ∧
      dictGet ex'.locals plotPathKey = some (.str pltSavePath) ∧
      memb pltSavePath w'.fs = true ∧
      consumePlotArtifact w' ex'.locals =
        some { w' with fs := fsRemove w'.fs pltSavePath } ∧
      memb pltSavePath (fsRemove w'.fs pltSavePath) = false := by
  refine ⟨{ fs := fsAdd w.fs pltSavePath, figAxes := false },
          ⟨env'.globals, dictSet env'.locals plotPathKey (.str pltSavePath)⟩,
          env'.out, ?_, ?_, ?_, ?_, ?_, ?_⟩
  · unfold CodeExecutor.execute
    rw [hok]
    simp [hplt, haxes]
  · exact dictCountKey_dictSet_self env'.locals plotPathKey _
  · exact dictGet_dictSet_self env'.locals plotPathKey _
  · exact memb_fsAdd_self w.fs pltSavePath
  · unfold consumePlotArtifact
    rw [dictGet_dictSet_self]
    simp [memb_fsAdd_self]
  · exact memb_fsRemove_self _ pltSavePath

/-- C6 witness: `plt.plot([1, 2, 3])` on a fresh executor in an empty world
renders a plot and the whole artifact lifecycle goes through. -/
theorem C6_plot_single_artifact_witness :
    ∃ (w' : World) (ex' : CodeExecutor) (out : String),
      CodeExecutor.execute 10 w0 CodeExecutor.init codePlot = some (w', ex', out, "") ∧
      dictCountKey ex'.locals plotPathKey = 1 ∧
      dictGet ex'.locals plotPathKey = some (.str pltSavePath) ∧
      memb pltSavePath w'.fs = true ∧
      consumePlotArtifact w' ex'.locals =
        some { w' with fs := fsRemove w'.fs pltSavePath } ∧
      memb pltSavePath (fsRemove w'.fs pltSavePath) = false :=
  C6_plot_single_artifact 10 w0 CodeExecutor.init codePlot
    { initEnv CodeExecutor.init with figAxes := true } (by decide) (by decide) rfl

/-! The state-preservation lemma behind C7. -/

/-- Statements that do not touch the shared state: no assignment into the
shared dicts and no drawing on the shared figure (reads, `print`, `raise`,
`pass` and control flow are all allowed). -/
def stateFreeStmt : PyStmt → Bool
  | .assign _ _ => false
  | .pltPlot => false
  | .whileE _ body => stateFreeStmt body
  | .seqS a b => stateFreeStmt a && stateFreeStmt b
  | _ => true

/-- Two environments that agree on everything except the stdout buffer. -/
def sameState (a b : Env) : Prop :=
  a.globals = b.globals ∧ a.locals = b.locals ∧ a.figAxes = b.figAxes

theorem sameState_refl (a : Env) : sameState a a := ⟨rfl, rfl, rfl⟩

theorem sameState_trans {a b c : Env} (h1 : sameState a b) (h2 : sameState b c) :
    sameState a c :=
  ⟨h1.1.trans h2.1, h1.2.1.trans h2.2.1, h1.2.2.trans h2.2.2⟩

/-- Running a state-free statement leaves the dicts and the figure unchanged,
whether it completes or raises. -/
theorem interp_stateFree (fuel : Nat) :
    ∀ (env : Env) (s : PyStmt), stateFreeStmt s = true →
      (∀ env', interpStmt fuel env s = .ok env' → sameState env' env) ∧
      (∀ e env', interpStmt fuel env s = .exc e env' → sameState env' env) := by
  induction fuel with
  | zero =>
    intro env s _
    constructor
    · intro env' h
      simp [interpStmt] at h
    · intro e env' h
      simp [interpStmt] at h
  | succ n ih =>
    intro env s hfree
    cases s with
    | assign x e => cases hfree
    | pltPlot => cases hfree
    | raiseE name msg =>
      constructor
      · intro env' h
        simp [interpStmt] at h
      · intro e env' h
        injection h with h1 h2
        rw [← h2]
        exact sameState_refl env
    | passE =>
      constructor
      · intro env' h
        injection h with h2
        rw [← h2]
        exact sameState_refl env
      · intro e env' h
        simp [interpStmt] at h
    | printE e =>
      constructor
      · intro env' h
        revert h
        show (match evalExpr env e with
              | .error ex => ExecOut.exc ex env
              | .ok v => .ok { env with out := env.out ++ pyStr v ++ "\n" }) = .ok env' → _
        cases hv : evalExpr env e with
        | error ex =>
          intro h
          simp at h
        | ok v =>
          intro h
          injection h with h2
          rw [← h2]
          exact ⟨rfl, rfl, rfl⟩
      · intro ex env' h
        revert h
        show (match evalExpr env e with
              | .error ex => ExecOut.exc ex env
              | .ok v => .ok { env with out := env.out ++ pyStr v ++ "\n" }) = .exc ex env' → _
        cases hv : evalExpr env e with
        | error ex2 =>
          intro h
          injection h with h1 h2
          rw [← h2]
          exact sameState_refl env
        | ok v =>
          intro h
          simp at h
    | seqS a b =>
      have hf2 : stateFreeStmt a = true ∧ stateFreeStmt b = true := by
        have := hfree
        simp [stateFreeStmt] at this
        exact this
      rw [interp_seq_step]
      cases ha : interpStmt n env a with
      | ok env1 =>
        have h1 : sameState env1 env := (ih env a hf2.1).1 env1 ha
        constructor
        · intro env' h
          exact sameState_trans ((ih env1 b hf2.2).1 env' h) h1
        · intro e env' h
          exact sameState_trans ((ih env1 b hf2.2).2 e env' h) h1
      | exc e1 env1 =>
        constructor
        · intro env' h
          simp at h
        · intro e env' h
          injection h with h1 h2
          rw [← h2]
          exact (ih env a hf2.1).2 e1 env1 ha
      | more =>
        constructor
        · intro env' h
          simp at h
        · intro e env' h
          simp at h
    | whileE c body =>
      have hfb : stateFreeStmt body = true := by
        have := hfree
        simpa [stateFreeStmt] using this
      rw [interp_while_step]
      cases hv : evalExpr env c with
      | error ex =>
        constructor
        · intro env' h
          simp at h
        · intro e env' h
          injection h with h1 h2
          rw [← h2]
          exact sameState_refl env
      | ok v =>
        by_cases ht : truthy v = true
        · simp only [ht, if_true]
          cases hb : interpStmt n env body with
          | ok env1 =>
            have h1 : sameState env1 env := (ih env body hfb).1 env1 hb
            have hfw : stateFreeStmt (.whileE c body) = true := by
              simpa [stateFreeStmt] using hfb
            constructor
            · intro env' h
              exact sameState_trans ((ih env1 (.whileE c body) hfw).1 env' h) h1
            · intro e env' h
              exact sameState_trans ((ih env1 (.whileE c body) hfw).2 e env' h) h1
          | exc e1 env1 =>
            constructor
            · intro env' h
              simp at h
            · intro e env' h
              injection h with h1 h2
              rw [← h2]
              exact (ih env body hfb).2 e1 env1 hb
          | more =>
            constructor
            · intro env' h
              simp at h
            · intro e env' h
              simp at h
        · simp only [ht, if_false]
          constructor
          · intro env' h
            injection h with h2
            rw [← h2]
            exact sameState_refl env
          · intro e env' h
            simp at h

/-- C7: running a deterministic, side-effect-free submission twice yields
identical stdout.  A state-free submission (no assignment, no plotting) leaves
the executor and the files untouched, so the second `execute` starts from the
same state as the first and returns the very same result — in particular the
same stdout (the model itself is a function, which is the determinism). -/
theorem execute_more (fuel : Nat) (w : World) (ex : CodeExecutor) (code : PyCode)
    (hi : interpStmt fuel (initEnv ex) code.prog = .more) :
    CodeExecutor.execute fuel w ex code = none := by
  unfold CodeExecutor.execute
  rw [hi]

theorem execute_ok (fuel : Nat) (w : World) (ex : CodeExecutor) (code : PyCode)
    (env' : Env) (hi : interpStmt fuel (initEnv ex) code.prog = .ok env') :
    CodeExecutor.execute fuel w ex code =
      (if strContains code.text "plt" && env'.figAxes then
        some ({ fs := fsAdd w.fs pltSavePath, figAxes := false },
              ⟨env'.globals, dictSet env'.locals plotPathKey (.str pltSavePath)⟩,
              env'.out, "")
      else
        some ({ fs := w.fs, figAxes := false }, ⟨env'.globals, env'.locals⟩,
              env'.out, "")) := by
  unfold CodeExecutor.execute
  rw [hi]

theorem execute_exc (fuel : Nat) (w : World) (ex : CodeExecutor) (code : PyCode)
    (e : PyExc) (env' : Env)
    (hi : interpStmt fuel (initEnv ex) code.prog = .exc e env') :
    CodeExecutor.execute fuel w ex code =
      some ({ fs := w.fs, figAxes := false }, ⟨env'.globals, env'.locals⟩,
            env'.out, "Error: " ++ e.msg ++ "\n" ++ tracebackText e) := by
  unfold CodeExecutor.execute
  rw [hi]

theorem C7_idempotent_stdout (fuel : Nat) (w w1 : World) (ex ex1 : CodeExecutor)
    (code : PyCode) (out err : String)
    (hfree : stateFreeStmt code.prog = true)
    (h : CodeExecutor.execute fuel w ex code = some (w1, ex1, out, err)) :
    ex1 = ex ∧ w1.fs = w.fs ∧
    CodeExecutor.execute fuel w1 ex1 code = some (w1, ex1, out, err) := by
  have hpure := interp_stateFree fuel (initEnv ex) code.prog hfree
  cases hi : interpStmt fuel (initEnv ex) code.prog with
  | more =>
    rw [execute_more fuel w ex code hi] at h
    exact Option.noConfusion h
  | ok env' =>
    have hs : sameState env' (initEnv ex) := hpure.1 env' hi
    have h1 : env'.globals = ex.globals := hs.1
    have h2 : env'.locals = ex.locals := hs.2.1
    have hax : env'.figAxes = false := hs.2.2
    rw [execute_ok fuel w ex code env' hi, hax] at h
    simp only [Bool.and_false, Bool.false_eq_true, if_false, Option.some.injEq,
      Prod.mk.injEq] at h
    obtain ⟨hw, hex, hout, herr⟩ := h
    have hex' : ex1 = ex := by
      rw [← hex, h1, h2]
    have hw1 : w1 = ⟨w.fs, false⟩ := hw.symm
    have hi2 : interpStmt fuel (initEnv ex1) code.prog = .ok env' := by
      rw [hex']; exact hi
    refine ⟨hex', by rw [hw1], ?_⟩
    rw [execute_ok fuel w1 ex1 code env' hi2, hax]
    simp only [Bool.and_false, Bool.false_eq_true, if_false, Option.some.injEq,
      Prod.mk.injEq]
    refine ⟨?_, ?_, hout, herr⟩
    · rw [hw1]
    · rw [h1, h2, hex']
  | exc e env' =>
    have hs : sameState env' (initEnv ex) := hpure.2 e env' hi
    have h1 : env'.globals = ex.globals := hs.1
    have h2 : env'.locals = ex.locals := hs.2.1
    rw [execute_exc fuel w ex code e env' hi] at h
    simp only [Option.some.injEq, Prod.mk.injEq] at h
    obtain ⟨hw, hex, hout, herr⟩ := h
    have hex' : ex1 = ex := by
      rw [← hex, h1, h2]
    have hw1 : w1 = ⟨w.fs, false⟩ := hw.symm
    have hi2 : interpStmt fuel (initEnv ex1) code.prog = .exc e env' := by
      rw [hex']; exact hi
    refine ⟨hex', by rw [hw1], ?_⟩
    rw [execute_exc fuel w1 ex1 code e env' hi2]
    simp only [Option.some.injEq, Prod.mk.injEq]
    refine ⟨?_, ?_, hout, herr⟩
    · rw [hw1]
    · rw [h1, h2, hex']

/-- C7 witness: `print(2+2)` is state-free; its run returns stdout `"4\n"`
and leaves the state untouched, so the second run returns the same. -/
theorem C7_idempotent_stdout_witness :
    CodeExecutor.init = CodeExecutor.init ∧ w0.fs = w0.fs ∧
    CodeExecutor.execute 10 w0 CodeExecutor.init codePrint22 =
      some (w0, CodeExecutor.init, "4\n", "") :=
  C7_idempotent_stdout 10 w0 w0 CodeExecutor.init CodeExecutor.init codePrint22
    "4\n" "" (by decide) (by decide)

/-! Helper lemmas for the progress store. -/

theorem splitCommaChars_no_comma (x : List Char) (hx : ¬ ',' ∈ x) :
    splitCommaChars x = [x] := by
  induction x with
  | nil => rfl
  | cons c cs ih =>
    have hc : ¬ c = ',' := fun h => hx (by rw [h]; exact List.mem_cons_self _ _)
    have hcs : ¬ ',' ∈ cs := fun h => hx (List.mem_cons_of_mem c h)
    have hbeq : (c == ',') = false := by simpa using hc
    unfold splitCommaChars
    rw [hbeq]
    simp only [Bool.false_eq_true, if_false]
    rw [ih hcs]

theorem splitCommaChars_cons_ne (c : Char) (cs : List Char)
    (h : (c == ',') = false) :
    splitCommaChars (c :: cs) =
      (match splitCommaChars cs with
       | [] => [[c]]
       | g :: gs => (c :: g) :: gs) := by
  show (if (c == ',') = true then [] :: splitCommaChars cs
        else match splitCommaChars cs with
          | [] => [[c]]
          | g :: gs => (c :: g) :: gs) =
       (match splitCommaChars cs with
        | [] => [[c]]
        | g :: gs => (c :: g) :: gs)
  rw [h]
  simp

theorem splitCommaChars_append (x t : List Char) (hx : ¬ ',' ∈ x) :
    splitCommaChars (x ++ ',' :: t) = x :: splitCommaChars t := by
  induction x with
  | nil => rfl
  | cons c cs ih =>
    have hcs : ¬ ',' ∈ cs := fun h => hx (List.mem_cons_of_mem c h)
    have hbeq : (c == ',') = false := by
      have hc : ¬ c = ',' := fun h => hx (by rw [h]; exact List.mem_cons_self _ _)
      simpa using hc
    show splitCommaChars (c :: (cs ++ ',' :: t)) = (c :: cs) :: splitCommaChars t
    rw [splitCommaChars_cons_ne c _ hbeq, ih hcs]

theorem joinComma_ne_empty (x : String) (rest : List String) (hx : x ≠ "") :
    joinComma (x :: rest) ≠ "" := by
  cases rest with
  | nil => simpa [joinComma] using hx
  | cons y r =>
    show x ++ "," ++ joinComma (y :: r) ≠ ""
    intro hcontra
    have hdata : (x ++ "," ++ joinComma (y :: r)).toList = "".toList := by rw [hcontra]
    rw [strToList_append, strToList_append] at hdata
    simp [show (",".toList : List Char) = [','] from rfl] at hdata

theorem splitComma_joinComma (ids : List String) (hne : ids ≠ [])
    (h : ∀ id ∈ ids, ¬ ',' ∈ id.toList) :
    splitComma (joinComma ids) = ids := by
  induction ids with
  | nil => cases hne rfl
  | cons x rest ih =>
    cases rest with
    | nil =>
      show (splitCommaChars (joinComma [x]).toList).map String.mk = [x]
      rw [show joinComma [x] = x from rfl,
          splitCommaChars_no_comma x.toList (h x (List.mem_cons_self x []))]
      rfl
    | cons y r =>
      have hx : ¬ ',' ∈ x.toList := h x (List.mem_cons_self _ _)
      have hrest : ∀ id ∈ y :: r, ¬ ',' ∈ id.toList :=
        fun id hid => h id (List.mem_cons_of_mem _ hid)
      show (splitCommaChars (x ++ "," ++ joinComma (y :: r)).toList).map String.mk
            = x :: y :: r
      rw [strToList_append, strToList_append,
          show (",".toList : List Char) = [','] from rfl, List.append_assoc,
          show ([','] ++ (joinComma (y :: r)).toList : List Char)
            = ',' :: (joinComma (y :: r)).toList from rfl,
          splitCommaChars_append x.toList _ hx, List.map_cons,
          show String.mk x.toList = x from rfl]
      exact congrArg (x :: ·) (ih (by simp) hrest)

theorem dbLookup_save (db : ProgressDb) (u now : String) (ids : List String) :
    dbLookup (save_progress db u ids now) u = some (joinComma ids, now) := by
  unfold save_progress
  induction db with
  | nil => simp [dbLookup]
  | cons r rest ih =>
    obtain ⟨k, c, t⟩ := r
    by_cases h : k == u
    · simpa [List.filter, h] using ih
    · simp only [List.filter, h, Bool.not_false, List.cons_append]
      rw [show dbLookup ((k, c, t) :: (List.filter (fun r => !(r.1 == u)) rest ++
            [(u, joinComma ids, now)])) u
          = dbLookup (List.filter (fun r => !(r.1 == u)) rest ++
            [(u, joinComma ids, now)]) u from by simp [dbLookup, h]]
      exact ih

/-- C8: reading progress right after saving it returns the same list.  For
any prior database state, `get_progress u` after `save_progress u ids` equals
`ids` whenever the ids are non-empty and comma-free (the store serialises them
with `",".join` and re-splits with `.split(",")`); and for a username with no
row, `get_progress` returns the empty list. -/
theorem C8_progress_roundtrip :
    (∀ (db : ProgressDb) (u now : String) (ids : List String),
        (∀ id ∈ ids, id ≠ "" ∧ ¬ ',' ∈ id.toList) →
        get_progress (save_progress db u ids now) u = ids) ∧
    (∀ (db : ProgressDb) (u : String), dbLookup db u = none →
        get_progress db u = []) := by
  constructor
  · intro db u now ids hids
    unfold get_progress
    rw [dbLookup_save]
    cases ids with
    | nil => rfl
    | cons x rest =>
      have hne : joinComma (x :: rest) ≠ "" :=
        joinComma_ne_empty x rest (hids x (List.mem_cons_self _ _)).1
      have hbeq : (joinComma (x :: rest) == "") = false := by simpa using hne
      show (if (joinComma (x :: rest) == "") = true then []
            else splitComma (joinComma (x :: rest))) = x :: rest
      rw [hbeq]
      simp only [Bool.false_eq_true, if_false]
      exact splitComma_joinComma (x :: rest) (by simp)
        (fun id hid => (hids id hid).2)
  · intro db u h
    unfold get_progress
    rw [h]

/-- C8 witness: a concrete save followed by a read, and a read of an absent
user. -/
theorem C8_progress_roundtrip_witness :
    get_progress (save_progress [] "alice" ["1", "2"] "2026-10-12 00:00:00")
      "alice" = ["1", "2"] ∧
    get_progress [] "bob" = [] :=
  ⟨C8_progress_roundtrip.1 [] "alice" "2026-10-12 00:00:00" ["1", "2"] (by decide),
   C8_progress_roundtrip.2 [] "bob" rfl⟩

/-! Helper lemma for the users store. -/

theorem usersGet_usersSet_self (users : Users) (u hsh : String) :
    usersGet (usersSet users u hsh) u = some hsh := by
  unfold usersSet
  induction users with
  | nil => simp [usersGet]
  | cons p rest ih =>
    by_cases h : p.1 == u
    · simpa [List.filter, h] using ih
    · simp only [List.filter, h, Bool.not_false, List.cons_append]
      rw [show usersGet ((p.1, p.2) :: (List.filter (fun q => !(q.1 == u)) rest ++
            [(u, hsh)])) u
          = usersGet (List.filter (fun q => !(q.1 == u)) rest ++ [(u, hsh)]) u
          from by simp [usersGet, h]]
      exact ih

/-- C9: after a successful `register(username, password)` (the username was
free), `authenticate(username, password)` returns `True`, and
`authenticate(username, p)` returns `False` for every `p` whose SHA-256 hex
digest differs from that of `password`; when the username is already taken,
`register` fails and leaves the stored users unchanged. -/
theorem C9_register_authenticate :
    (∀ (users : Users) (u pw : String), usersGet users u = none →
      (register users u pw).2.1 = true ∧
      authenticate (register users u pw).1 u pw = true ∧
      (∀ p : String, hash_password p ≠ hash_password pw →
        authenticate (register users u pw).1 u p = false)) ∧
    (∀ (users : Users) (u pw : String), (usersGet users u).isSome = true →
      register users u pw = (users, false, "Username already exists.")) := by
  constructor
  · intro users u pw hnone
    have hreg : register users u pw =
        (usersSet users u (hash_password pw), true, "Registration successful!") := by
      unfold register
      rw [hnone]
      rfl
    refine ⟨by rw [hreg], ?_, ?_⟩
    · rw [hreg]
      unfold authenticate
      rw [usersGet_usersSet_self]
      exact beq_self_eq_true (hash_password pw)
    · intro p hp
      rw [hreg]
      unfold authenticate
      rw [usersGet_usersSet_self]
      exact beq_eq_false_iff_ne.mpr fun hEq => hp hEq.symm
  · intro users u pw hsome
    unfold register
    rw [hsome]
    rfl

/-- C9 witness: registering `alice` with password `pw` in an empty store;
`authenticate` accepts `pw`, rejects `qw` (whose SHA-256 digest differs, as
the kernel computes), and re-registering taken `bob` fails unchanged. -/
theorem C9_register_authenticate_witness :
    authenticate (register [] "alice" "pw").1 "alice" "pw" = true ∧
    authenticate (register [] "alice" "pw").1 "alice" "qw" = false ∧
    register [("bob", "h")] "bob" "pw" =
      ([("bob", "h")], false, "Username already exists.") :=
  ⟨(C9_register_authenticate.1 [] "alice" "pw" rfl).2.1,
   (C9_register_authenticate.1 [] "alice" "pw" rfl).2.2 "qw" (by decide),
   C9_register_authenticate.2 [("bob", "h")] "bob" "pw" (by decide)⟩

/-- When the id is already recorded, `mark_problem_complete` does nothing. -/
theorem mark_noop (d : UserData) (today : PyDate) (pid : Int)
    (hc : d.completed_problems.contains pid = true) :
    mark_problem_complete d today pid = .ok d := by
  unfold mark_problem_complete
  rw [hc]
  rfl

/-- C10: `mark_problem_complete` keeps `completed_problems` duplicate-free
(the id is appended only when absent), and a second call with the same id is a
complete no-op: it returns the state unchanged, touching neither
`completed_problems`, nor `daily_progress`, nor `current_streak`. -/
theorem C10_mark_complete_idempotent (data : UserData) (today : PyDate)
    (pid : Int) (h : data.completed_problems.Nodup) :
    (markState (mark_problem_complete data today pid)).completed_problems.Nodup ∧
    mark_problem_complete (markState (mark_problem_complete data today pid))
        today pid
      = .ok (markState (mark_problem_complete data today pid)) := by
  by_cases hc : data.completed_problems.contains pid = true
  · rw [mark_noop data today pid hc]
    exact ⟨h, mark_noop data today pid hc⟩
  · have hcf : data.completed_problems.contains pid = false := by
      simpa using hc
    have hmem : pid ∉ data.completed_problems := by
      intro hm
      have h2 : data.completed_problems.contains pid = true := List.elem_iff.mpr hm
      rw [h2] at hcf
      cases hcf
    have key : (markState (mark_problem_complete data today pid)).completed_problems
        = data.completed_problems ++ [pid] := by
      unfold mark_problem_complete
      rw [hcf]
      simp only [Bool.false_eq_true, if_false]
      unfold update_streak
      cases hs : streakWalk
          (dailySet data.daily_progress (isoformat today)
            (dailyGet data.daily_progress (isoformat today) + 1))
          today.year today.month today.day with
      | ok s => simp [hs, Except.map, markState]
      | error e => simp [hs, Except.map, markState]
    constructor
    · rw [key]
      simp [List.nodup_append, h, hmem]
    · refine mark_noop _ today pid ?_
      rw [key]
      exact List.elem_iff.mpr (by simp)

/-- C10 witness: marking problem 3 complete on a fresh state keeps the list
duplicate-free and a repeated call changes nothing. -/
theorem C10_mark_complete_idempotent_witness :
    (markState (mark_problem_complete ⟨[], [], 0, none⟩ ⟨2026, 10, 12⟩ 3)).completed_problems.Nodup ∧
    mark_problem_complete
        (markState (mark_problem_complete ⟨[], [], 0, none⟩ ⟨2026, 10, 12⟩ 3))
        ⟨2026, 10, 12⟩ 3
      = .ok (markState (mark_problem_complete ⟨[], [], 0, none⟩ ⟨2026, 10, 12⟩ 3)) :=
  C10_mark_complete_idempotent ⟨[], [], 0, none⟩ ⟨2026, 10, 12⟩ 3 (by decide)

end StackedML
